import Mathlib

/-
Formal model of the kinesis_handler repository.

Embedded components (translated from the TypeScript source):
  * src/utils/retry.ts           — retryWithBackoff, isRetryableError, calculateDelay
  * src/utils/idempotency.ts     — IdempotencyTracker
  * src/utils/circuit-breaker.ts — CircuitBreaker
  * src/handlers/kinesis-handler.ts — KinesisHandler.processBatch and helpers
plus the alternate retry classifier found elsewhere in the repository
(src/unnamed/part_011), named `isRetryableErrorV2` below.

Conventions: timestamps (Date.now()) are naturals threaded as explicit `now`
arguments; JavaScript exceptions are `Except`; a thrown non-Error value is
`Option.none`; the cooperative concurrency of the batch dispatch is
sequentialised (records are processed in input order, which is also the order
`Promise.all` reports results in).
-/

/-- A JavaScript `Error` value: `name`, `message`, optional `code` property,
and a marker recording whether the value is an `instanceof` the
`SkippedRecordError` class declared in kinesis-handler.ts. -/
structure JsError where
  name : String
  message : String
  code : Option String
  isSkippedRecordError : Bool
deriving DecidableEq, Repr

/-- Prefix test on character lists (kernel-reducible helper for `strIncludes`). -/
def charListPrefix : List Char → List Char → Bool
  | [], _ => true
  | _ :: _, [] => false
  | c :: cs, d :: ds => c == d && charListPrefix cs ds

/-- Infix test on character lists (kernel-reducible helper for `strIncludes`). -/
def charListInfix : List Char → List Char → Bool
  | pat, [] => charListPrefix pat []
  | pat, d :: ds => charListPrefix pat (d :: ds) || charListInfix pat ds

/-- JavaScript `s.includes(pat)`: `pat` occurs as a contiguous substring of `s`. -/
def strIncludes (s pat : String) : Bool :=
  charListInfix pat.data s.data

/-- JavaScript `s.toLowerCase()` (character-wise, kernel-reducible). -/
def strToLower (s : String) : String :=
  String.mk (s.data.map Char.toLower)

/-- The `retryableErrors` entry of `DEFAULT_OPTIONS` in src/utils/retry.ts
(the same list appears in the alternate retry classifier). -/
def defaultRetryableErrors : List String :=
  ["ECONNRESET", "ETIMEDOUT", "ENOTFOUND", "ThrottlingException",
   "ProvisionedThroughputExceededException", "RequestTimeout", "ServiceUnavailable"]

/-- The expression `(error as { code?: string }).code || error.name`:
JavaScript `||` falls through to the name when `code` is absent or empty. -/
def errorIdentifier (e : JsError) : String :=
  match e.code with
  | some c => if c = "" then e.name else c
  | none => e.name

/-- isRetryableError from src/utils/retry.ts: a thrown value that is an `Error`
is retryable iff its code/name contains one of the configured identifiers;
anything else (including a thrown non-Error, modelled by `none`) is not. -/
def isRetryableError (error : Option JsError) (retryableErrors : List String) : Bool :=
  match error with
  | some e => retryableErrors.any (fun r => strIncludes (errorIdentifier e) r)
  | none => false

/-- The `nonRetryablePatterns` list of the alternate retry classifier. -/
def nonRetryablePatterns : List String :=
  ["must be one of the following values", "validation failed", "invalid"]

/-- isRetryableError from the alternate retry module (src/unnamed/part_011):
skip signals and validation phrases are non-retryable, recognized transient
identifiers are retryable, and otherwise only an error with an empty or
generic `Error` identifier is retryable by default. -/
def isRetryableErrorV2 (error : Option JsError) : Bool :=
  match error with
  | none => false
  | some e =>
    if e.name = "SkippedRecordError" then false
    else if nonRetryablePatterns.any (fun p => strIncludes (strToLower e.message) p) then false
    else if defaultRetryableErrors.any (fun r => strIncludes (errorIdentifier e) r) then true
    else (errorIdentifier e == "") || (errorIdentifier e == "Error")

/-- RetryOptions with every field resolved, as after `{...DEFAULT_OPTIONS, ...options}`.
Delay quantities are rationals (JavaScript numbers). -/
structure RetryOptions where
  maxAttempts : Nat
  initialDelayMs : ℚ
  maxDelayMs : ℚ
  backoffMultiplier : ℚ
  jitterFactor : ℚ
  retryableErrors : List String

/-- DEFAULT_OPTIONS of src/utils/retry.ts. -/
def defaultRetryOptions : RetryOptions :=
  ⟨3, 100, 5000, 2, 1/10, defaultRetryableErrors⟩

/-- calculateDelay from src/utils/retry.ts. `rand` stands for the `Math.random()`
draw of this call (a value in `[0, 1)`); `Math.floor` is `Int.floor`. -/
def calculateDelay (attempt : Nat) (options : RetryOptions) (rand : ℚ) : ℤ :=
  let exponentialDelay := options.initialDelayMs * options.backoffMultiplier ^ (attempt - 1)
  let cappedDelay := min exponentialDelay options.maxDelayMs
  let jitter := cappedDelay * options.jitterFactor * (rand * 2 - 1)
  ⌊cappedDelay + jitter⌋

/-- Outcome of a `retryWithBackoff` run: the final caller state threaded through
the attempts, the number of invocations of the operation, the attempt indices
after which a backoff sleep happened, and the value returned or thrown
(`Except.error none` models throwing the initial `undefined` last error). -/
structure RetryOut (σ : Type) (α : Type) where
  state : σ
  attempts : Nat
  slept : List Nat
  result : Except (Option JsError) α

/-- The `while (attempt < opts.maxAttempts)` loop of retryWithBackoff.
`fuel` counts the remaining loop iterations (`maxAttempts - attempt`, so the
`fuel = 0` base is exactly the loop condition failing, after which the last
error is thrown). A sleep is recorded by appending the attempt index whose
`calculateDelay` was awaited. The operation may carry caller state `σ`
(used to thread the idempotency tracker through the handler's retries). -/
def retryGo (step : Nat → σ → σ × Except JsError α) (classify : JsError → Bool)
    (maxAttempts : Nat) :
    Nat → Nat → σ → List Nat → Option JsError → RetryOut σ α
  | 0, attempt, s, slept, lastError => ⟨s, attempt, slept, Except.error lastError⟩
  | fuel + 1, attempt, s, slept, _lastError =>
    let a := attempt + 1
    let out := step a s
    match out.2 with
    | Except.ok v => ⟨out.1, a, slept, Except.ok v⟩
    | Except.error e =>
      if classify e = false then ⟨out.1, a, slept, Except.error (some e)⟩
      else if maxAttempts ≤ a then ⟨out.1, a, slept, Except.error (some e)⟩
      else retryGo step classify maxAttempts fuel a out.1 (slept ++ [a]) (some e)

/-- retryWithBackoff from src/utils/retry.ts, over an operation with caller
state `σ`; classification of a caught error is abstracted by `classify`. -/
def retryWithBackoff (step : Nat → σ → σ × Except JsError α) (classify : JsError → Bool)
    (maxAttempts : Nat) (s : σ) : RetryOut σ α :=
  retryGo step classify maxAttempts maxAttempts 0 s [] none

/-- One value of the `processedEvents` map of src/utils/idempotency.ts:
`{ timestamp: number; userId: string }`. -/
structure IdemEntry where
  timestamp : Nat
  userId : String
deriving DecidableEq, Repr

/-- The `processedEvents` JavaScript `Map`, modelled as an association list
keyed by eventId (lookups take the first binding). -/
abbrev Tracker := List (String × IdemEntry)

/-- Map.get. -/
def tGet (m : Tracker) (k : String) : Option IdemEntry :=
  match m.find? (fun p => p.1 == k) with
  | some p => some p.2
  | none => none

/-- Map.set (replaces any existing binding of the key). -/
def tSet (m : Tracker) (k : String) (v : IdemEntry) : Tracker :=
  (k, v) :: m.filter (fun p => !(p.1 == k))

/-- Map.delete. -/
def tDel (m : Tracker) (k : String) : Tracker :=
  m.filter (fun p => !(p.1 == k))

/-- The tracker's construction parameter `ttlMs` (default 3600000 = 1 hour). -/
structure IdemConfig where
  ttlMs : Int
deriving Repr

def defaultIdemConfig : IdemConfig := ⟨3600000⟩

/-- IdempotencyTracker.isExpired: `Date.now() - entry.timestamp > this.ttlMs`. -/
def isExpired (cfg : IdemConfig) (entry : IdemEntry) (now : Nat) : Bool :=
  cfg.ttlMs < (now : Int) - (entry.timestamp : Int)

/-- IdempotencyTracker.checkAndMarkInProgress: admit (and insert the key) when
the key is absent or its entry expired, refuse (leaving the map unchanged)
when the key is present and unexpired. Returns (admitted, new map). -/
def checkAndMarkInProgress (cfg : IdemConfig) (now : Nat) (m : Tracker)
    (eventId userId : String) : Bool × Tracker :=
  match tGet m eventId with
  | some entry =>
    if isExpired cfg entry now then
      (true, tSet (tDel m eventId) eventId ⟨now, userId⟩)
    else
      (false, m)
  | none => (true, tSet m eventId ⟨now, userId⟩)

/-- IdempotencyTracker.unmarkProcessed: unconditional delete. -/
def unmarkProcessed (m : Tracker) (eventId : String) : Tracker :=
  tDel m eventId

/-- CircuitState of src/utils/circuit-breaker.ts (`opened` is the source's
`OPEN`, `halfOpen` is `HALF_OPEN`). -/
inductive CircuitState
  | closed
  | opened
  | halfOpen
deriving DecidableEq, Repr

/-- CircuitBreakerOptions with every field resolved against DEFAULT_OPTIONS. -/
structure CBOptions where
  failureThreshold : Nat
  successThreshold : Nat
  timeout : Nat
deriving DecidableEq, Repr

/-- DEFAULT_OPTIONS of src/utils/circuit-breaker.ts. -/
def defaultCBOptions : CBOptions := ⟨5, 2, 60000⟩

/-- The mutable fields of a CircuitBreaker instance. -/
structure CircuitBreaker where
  state : CircuitState
  failureCount : Nat
  successCount : Nat
  nextAttemptTime : Nat
deriving DecidableEq, Repr

/-- CircuitBreaker.transitionTo: sets the state and resets the counters the
source's switch resets on entering each state. -/
def transitionTo (opts : CBOptions) (now : Nat) (cb : CircuitBreaker)
    (newState : CircuitState) : CircuitBreaker :=
  match newState with
  | CircuitState.closed => ⟨CircuitState.closed, 0, 0, 0⟩
  | CircuitState.opened => ⟨CircuitState.opened, cb.failureCount, 0, now + opts.timeout⟩
  | CircuitState.halfOpen => ⟨CircuitState.halfOpen, 0, 0, cb.nextAttemptTime⟩

/-- CircuitBreaker.onSuccess. -/
def onSuccess (opts : CBOptions) (now : Nat) (cb : CircuitBreaker) : CircuitBreaker :=
  match cb.state with
  | CircuitState.halfOpen =>
    let cb2 := { cb with successCount := cb.successCount + 1 }
    if opts.successThreshold ≤ cb2.successCount then
      transitionTo opts now cb2 CircuitState.closed
    else cb2
  | CircuitState.closed => { cb with failureCount := 0 }
  | CircuitState.opened => cb

/-- CircuitBreaker.onFailure. -/
def onFailure (opts : CBOptions) (now : Nat) (cb : CircuitBreaker) : CircuitBreaker :=
  let cb2 := { cb with failureCount := cb.failureCount + 1 }
  match cb2.state with
  | CircuitState.halfOpen => transitionTo opts now cb2 CircuitState.opened
  | CircuitState.closed =>
    if opts.failureThreshold ≤ cb2.failureCount then
      transitionTo opts now cb2 CircuitState.opened
    else cb2
  | CircuitState.opened => cb2

/-- Observation of one `CircuitBreaker.execute` call: the breaker afterwards,
whether the wrapped operation was invoked, whether the call was rejected with
the distinct `CircuitBreakerOpenError`, and (when invoked) the breaker state
at the moment of invocation. -/
structure CBExecOut where
  cb : CircuitBreaker
  invoked : Bool
  rejectedOpen : Bool
  stateAtInvoke : Option CircuitState
deriving DecidableEq, Repr

/-- CircuitBreaker.execute: the wrapped operation's outcome is `opSucceeds`. -/
def cbExecute (opts : CBOptions) (now : Nat) (opSucceeds : Bool)
    (cb : CircuitBreaker) : CBExecOut :=
  if cb.state = CircuitState.opened then
    if now < cb.nextAttemptTime then
      ⟨cb, false, true, none⟩
    else
      let cb2 := transitionTo opts now cb CircuitState.halfOpen
      if opSucceeds then ⟨onSuccess opts now cb2, true, false, some cb2.state⟩
      else ⟨onFailure opts now cb2, true, false, some cb2.state⟩
  else
    if opSucceeds then ⟨onSuccess opts now cb, true, false, some cb.state⟩
    else ⟨onFailure opts now cb, true, false, some cb.state⟩

/-- Iterated breaker calls: `n` consecutive `execute` calls whose wrapped
operation always has the
same outcome `opSucceeds`, all at time `now`. -/
def cbIter (opts : CBOptions) (now : Nat) (opSucceeds : Bool) :
    Nat → CircuitBreaker → CircuitBreaker
  | 0, cb => cb
  | n + 1, cb => (cbExecute opts now opSucceeds (cbIter opts now opSucceeds n cb)).cb

/-- The fields of the decoded payload the handler destructures:
`const { eventId, userId } = event`. -/
structure DecodedEvent where
  eventId : Option String
  userId : Option String
deriving DecidableEq, Repr

/-- The external validator's result shape
`{ isValid, eventType?, error?, validatedData? }` (validated data elided). -/
structure ValidationResult where
  isValid : Bool
  eventType : Option String
  error : Option String
deriving DecidableEq, Repr

/-- One Kinesis record together with the behaviour of the external
collaborators on it: `decode` is the outcome of
`JSON.parse(Buffer.from(record.kinesis.data, 'base64').toString('utf-8'))`
followed by the destructuring of eventId/userId; `validation` the (deterministic)
validator verdict; `hasMatchingProcessor` whether `eventType` is truthy and some
registered processor `canHandle`s it; `processorFails n` the outcome of
`processor.processEvent` on the n-th attempt (`none` = resolves). `fallbackUuid`
stands for the `randomUUID()` draw used when no deterministic id is available. -/
structure RecordModel where
  sequenceNumber : String
  eventSourceARN : Option String
  approximateArrivalTimestamp : Option Nat
  fallbackUuid : String
  decode : Except JsError DecodedEvent
  validation : ValidationResult
  hasMatchingProcessor : Bool
  processorFails : Nat → Option JsError

/-- getCorrelationId from src/utils/correlation-id.ts (timestamps already
floored to naturals; JavaScript truthiness of `timestamp && sequence`). -/
def getCorrelationId (r : RecordModel) : String :=
  match r.approximateArrivalTimestamp with
  | some ts =>
    if ts ≠ 0 ∧ r.sequenceNumber ≠ "" then
      toString ts ++ "-" ++ r.sequenceNumber.takeRight 8
    else r.fallbackUuid
  | none => r.fallbackUuid

/-- Constructor of the `SkippedRecordError` class of kinesis-handler.ts. -/
def skippedRecordError (msg : String) : JsError :=
  ⟨"SkippedRecordError", msg, none, true⟩

/-- A call the handler makes on the idempotency tracker (instrumentation of
the embedding, used to state that the dedup check is bypassed). -/
inductive TrackerOp
  | checkAndMark (eventId userId : String) (admitted : Bool)
  | unmark (eventId : String)
deriving DecidableEq, Repr

def TrackerOp.isCheckAndMark : TrackerOp → Bool
  | TrackerOp.checkAndMark _ _ _ => true
  | TrackerOp.unmark _ => false

/-- Outcome of one `processRecord` attempt: the tracker afterwards, the tracker
calls made, whether the processor was invoked, and the value thrown (skips are
`SkippedRecordError` throws) or `ok`. -/
structure StepOut where
  tracker : Tracker
  ops : List TrackerOp
  procInvoked : Bool
  result : Except JsError Unit

/-- The part of `KinesisHandler.processRecord` after the idempotency check:
validation (unmarking the eventId on validation failure), processor routing,
and the processor invocation (unmarking the eventId when it throws). -/
def processRecordAfterDedup (r : RecordModel) (attempt : Nat) (eventId : Option String)
    (tr : Tracker) (ops : List TrackerOp) : StepOut :=
  if r.validation.isValid = false then
    match eventId with
    | some eid =>
      ⟨unmarkProcessed tr eid, ops ++ [TrackerOp.unmark eid], false,
        Except.error (skippedRecordError
          ("Validation failed: " ++ r.validation.error.getD "undefined"))⟩
    | none =>
      ⟨tr, ops, false,
        Except.error (skippedRecordError
          ("Validation failed: " ++ r.validation.error.getD "undefined"))⟩
  else if r.hasMatchingProcessor then
    match r.processorFails attempt with
    | none => ⟨tr, ops, true, Except.ok ()⟩
    | some e =>
      match eventId with
      | some eid => ⟨unmarkProcessed tr eid, ops ++ [TrackerOp.unmark eid], true, Except.error e⟩
      | none => ⟨tr, ops, true, Except.error e⟩
  else
    ⟨tr, ops, false, Except.error (skippedRecordError "No processor found for event type")⟩

/-- KinesisHandler.processRecord (one attempt): decode, then — only when both
eventId and userId are present — the idempotency check (throwing the duplicate
skip when refused), then validation/routing/processing. -/
def processRecordStep (cfg : IdemConfig) (r : RecordModel) (attempt now : Nat)
    (tr : Tracker) : StepOut :=
  match r.decode with
  | Except.error e => ⟨tr, [], false, Except.error e⟩
  | Except.ok ev =>
    match ev.eventId, ev.userId with
    | some eid, some uid =>
      let res := checkAndMarkInProgress cfg now tr eid uid
      if res.1 = false then
        ⟨res.2, [TrackerOp.checkAndMark eid uid false], false,
          Except.error (skippedRecordError "Duplicate event")⟩
      else
        processRecordAfterDedup r attempt (some eid) res.2
          [TrackerOp.checkAndMark eid uid true]
    | _, _ => processRecordAfterDedup r attempt ev.eventId tr []

/-- The caller state threaded through the handler's retry loop. -/
structure PipeState where
  tracker : Tracker
  ops : List TrackerOp
  procInvocations : Nat

/-- One attempt of `processRecord` as a step of `retryWithBackoff`. -/
def pipeStep (cfg : IdemConfig) (r : RecordModel) (now : Nat)
    (attempt : Nat) (ps : PipeState) : PipeState × Except JsError Unit :=
  let so := processRecordStep cfg r attempt now ps.tracker
  (⟨so.tracker, ps.ops ++ so.ops,
    ps.procInvocations + (if so.procInvoked then 1 else 0)⟩, so.result)

/-- The classifier the handler's retry actually runs with: retry.ts is called
with only `maxAttempts` overridden, so the default retryable-error list applies. -/
def defaultClassify (e : JsError) : Bool :=
  isRetryableError (some e) defaultRetryableErrors

/-- The handler's per-record `ProcessingResult`. -/
structure ProcessingResultM where
  record : RecordModel
  success : Bool
  error : Option JsError
  correlationId : String
  attemptCount : Nat

/-- Everything observable about one `processRecordWithRetry` call. -/
structure RecordRun where
  res : ProcessingResultM
  tracker : Tracker
  ops : List TrackerOp
  procInvocations : Nat
  slept : List Nat

/-- KinesisHandler.processRecordWithRetry: run `processRecord` under
retryWithBackoff; a thrown `SkippedRecordError` is reported as success, any
other exhausted/non-retryable error as failure; `attemptCount` is the number
of invocations of the operation. -/
def processRecordWithRetry (cfg : IdemConfig) (maxAttempts now : Nat) (r : RecordModel)
    (tr : Tracker) : RecordRun :=
  let out := retryWithBackoff (pipeStep cfg r now) defaultClassify maxAttempts ⟨tr, [], 0⟩
  match out.result with
  | Except.ok _ =>
    ⟨⟨r, true, none, getCorrelationId r, out.attempts⟩,
      out.state.tracker, out.state.ops, out.state.procInvocations, out.slept⟩
  | Except.error (some e) =>
    if e.isSkippedRecordError then
      ⟨⟨r, true, none, getCorrelationId r, out.attempts⟩,
        out.state.tracker, out.state.ops, out.state.procInvocations, out.slept⟩
    else
      ⟨⟨r, false, some e, getCorrelationId r, out.attempts⟩,
        out.state.tracker, out.state.ops, out.state.procInvocations, out.slept⟩
  | Except.error none =>
    ⟨⟨r, false, some ⟨"Error", "undefined", none, false⟩, getCorrelationId r, out.attempts⟩,
      out.state.tracker, out.state.ops, out.state.procInvocations, out.slept⟩

/-- The Checkpoint shape of src/utils/checkpointing.ts. -/
structure Checkpoint where
  shardId : String
  sequenceNumber : String
  timestamp : Nat
  recordCount : Nat
deriving DecidableEq, Repr

/-- The checkpoint `updateCheckpoint` builds for a record:
`shardId = record.eventSourceARN ?? 'unknown-shard'`, `recordCount: 1`. -/
def mkCheckpoint (r : RecordModel) (now : Nat) : Checkpoint :=
  ⟨r.eventSourceARN.getD "unknown-shard", r.sequenceNumber, now, 1⟩

/-- One entry of the batch handed to `DLQHandler.sendBatchToDLQ`. -/
structure DLQEntryM where
  record : RecordModel
  error : JsError
  attemptCount : Nat
  correlationId : String

/-- The failure-to-DLQ-entry mapping of `KinesisHandler.handleFailures`:
`error: f.error || new Error('Unknown error')`. -/
def mkDLQEntry (f : ProcessingResultM) : DLQEntryM :=
  ⟨f.record, f.error.getD ⟨"Error", "Unknown error", none, false⟩,
    f.attemptCount, f.correlationId⟩

/-- KinesisHandler.updateCheckpoint: one `saveCheckpoint` call is attempted
(first component); a save failure is caught and logged, so the method itself
always resolves (second component). -/
def updateCheckpoint (r : RecordModel) (now : Nat) (saveResult : Except JsError Unit) :
    List Checkpoint × Except JsError Unit :=
  ([mkCheckpoint r now],
    match saveResult with
    | Except.ok _ => Except.ok ()
    | Except.error _ => Except.ok ())

/-- The record tasks of one batch, run in input order (the cooperative
dispatch sequentialised), threading the shared idempotency tracker. -/
def runRecords (cfg : IdemConfig) (maxAttempts now : Nat) :
    List RecordModel → Tracker → List ProcessingResultM × Tracker
  | [], tr => ([], tr)
  | r :: rs, tr =>
    let run := processRecordWithRetry cfg maxAttempts now r tr
    let rest := runRecords cfg maxAttempts now rs run.tracker
    (run.res :: rest.1, rest.2)

def batchResults (cfg : IdemConfig) (maxAttempts now : Nat) (records : List RecordModel)
    (tr : Tracker) : List ProcessingResultM :=
  (runRecords cfg maxAttempts now records tr).1

/-- The `failures` half of the reduce partition (input order preserved). -/
def batchFailures (cfg : IdemConfig) (maxAttempts now : Nat) (records : List RecordModel)
    (tr : Tracker) : List ProcessingResultM :=
  (batchResults cfg maxAttempts now records tr).filter (fun x => !x.success)

/-- The `successes` half of the reduce partition (input order preserved). -/
def batchSuccesses (cfg : IdemConfig) (maxAttempts now : Nat) (records : List RecordModel)
    (tr : Tracker) : List ProcessingResultM :=
  (batchResults cfg maxAttempts now records tr).filter (fun x => x.success)

/-- Everything observable about one `processBatch` call: the per-record results
(in input order), the returned `batchItemFailures` identifiers, the attempted
checkpoint saves, the dead-letter batch calls, and the tracker afterwards. -/
structure BatchOut where
  results : List ProcessingResultM
  failedIdentifiers : List String
  checkpointCalls : List Checkpoint
  dlqBatches : List (List DLQEntryM)
  tracker : Tracker

/-- KinesisHandler.processBatch: process every record, partition the results,
send one DLQ batch when there are failures, save one checkpoint built from
the last success in input order when there are successes (`saveResult` is the
checkpoint backend's behaviour), and return the failures' sequence numbers.
An error escaping a step would propagate (the outer catch rethrows). -/
def processBatch (cfg : IdemConfig) (maxAttempts now : Nat) (records : List RecordModel)
    (tr : Tracker) (saveResult : Except JsError Unit) : Except JsError BatchOut :=
  let runs := runRecords cfg maxAttempts now records tr
  let results := runs.1
  let failures := results.filter (fun x => !x.success)
  let successes := results.filter (fun x => x.success)
  let dlqBatches : List (List DLQEntryM) :=
    if 0 < failures.length then [failures.map mkDLQEntry] else []
  match successes.getLast? with
  | none =>
    Except.ok ⟨results, failures.map (fun f => f.record.sequenceNumber), [], dlqBatches, runs.2⟩
  | some lastSuccess =>
    let ck := updateCheckpoint lastSuccess.record now saveResult
    match ck.2 with
    | Except.error e => Except.error e
    | Except.ok _ =>
      Except.ok ⟨results, failures.map (fun f => f.record.sequenceNumber), ck.1,
        dlqBatches, runs.2⟩

lemma tGet_tSet_self (m : Tracker) (k : String) (v : IdemEntry) :
    tGet (tSet m k v) k = some v := by
  simp [tGet, tSet, List.find?]

lemma tGet_tDel_self (m : Tracker) (k : String) :
    tGet (tDel m k) k = none := by
  unfold tGet tDel
  have h : List.find? (fun p => p.1 == k) (m.filter (fun p => !(p.1 == k))) = none := by
    rw [List.find?_eq_none]
    intro x hx
    have hmem := (List.mem_filter.mp hx).2
    simp at hmem
    simp [hmem]
  rw [h]

lemma processRecordWithRetry_record (cfg : IdemConfig) (maxAttempts now : Nat)
    (r : RecordModel) (tr : Tracker) :
    (processRecordWithRetry cfg maxAttempts now r tr).res.record = r := by
  unfold processRecordWithRetry
  rcases h : (retryWithBackoff (pipeStep cfg r now) defaultClassify maxAttempts
      ⟨tr, [], 0⟩).result with e | v
  · rcases e with - | e
    · simp [h]
    · by_cases hs : e.isSkippedRecordError <;> simp [h, hs]
  · simp [h]

lemma runRecords_map_record (cfg : IdemConfig) (maxAttempts now : Nat) :
    ∀ (records : List RecordModel) (tr : Tracker),
      (runRecords cfg maxAttempts now records tr).1.map (fun x => x.record) = records := by
  intro records
  induction records with
  | nil => intro tr; rfl
  | cons r rs ih =>
    intro tr
    simp [runRecords, processRecordWithRetry_record, ih]

/-- Normal form of `processBatch`: it always resolves, with the components
spelled out (the checkpoint save failure, if any, having been swallowed by
`updateCheckpoint`). -/
lemma processBatch_ok (cfg : IdemConfig) (maxAttempts now : Nat) (records : List RecordModel)
    (tr : Tracker) (saveResult : Except JsError Unit) :
    processBatch cfg maxAttempts now records tr saveResult =
      Except.ok ⟨batchResults cfg maxAttempts now records tr,
        (batchFailures cfg maxAttempts now records tr).map (fun f => f.record.sequenceNumber),
        (match (batchSuccesses cfg maxAttempts now records tr).getLast? with
          | some lastSuccess => [mkCheckpoint lastSuccess.record now]
          | none => []),
        (if 0 < (batchFailures cfg maxAttempts now records tr).length then
          [(batchFailures cfg maxAttempts now records tr).map mkDLQEntry] else []),
        (runRecords cfg maxAttempts now records tr).2⟩ := by
  unfold processBatch batchFailures batchSuccesses batchResults
  rcases h : ((runRecords cfg maxAttempts now records tr).1.filter
      (fun x => x.success)).getLast? with - | lastSuccess
  · simp [h]
  · rcases saveResult with - | e <;> simp [h, updateCheckpoint]

/-- If every attempt of the operation throws a retryable-classified error, the
loop runs the full budget and finally rethrows the last attempt's error. An
invariant `I` on the caller state may be threaded through. -/
lemma retryGo_all_retryable_fail {σ α : Type} (step : Nat → σ → σ × Except JsError α)
    (classify : JsError → Bool) (maxAttempts : Nat) (err : Nat → JsError) (I : σ → Prop)
    (hstep : ∀ a s, I s → (step a s).2 = Except.error (err a) ∧ I (step a s).1)
    (hcl : ∀ a, classify (err a) = true) :
    ∀ (fuel attempt : Nat) (s : σ) (slept : List Nat) (lastE : Option JsError),
      I s → fuel + attempt = maxAttempts → 1 ≤ fuel →
      (retryGo step classify maxAttempts fuel attempt s slept lastE).attempts = maxAttempts ∧
      (retryGo step classify maxAttempts fuel attempt s slept lastE).result =
        Except.error (some (err maxAttempts)) ∧
      I (retryGo step classify maxAttempts fuel attempt s slept lastE).state := by
  intro fuel
  induction fuel with
  | zero => intro attempt s slept lastE _ _ hf; omega
  | succ f ih =>
    intro attempt s slept lastE hI hsum _
    obtain ⟨h2, hI2⟩ := hstep (attempt + 1) s hI
    rcases f with - | f2
    · have ha : attempt + 1 = maxAttempts := by omega
      subst ha
      simp [retryGo, h2, hcl]
      exact hI2
    · have ha : ¬ maxAttempts ≤ attempt + 1 := by omega
      have hrec := ih (attempt + 1) (step (attempt + 1) s).1 (slept ++ [attempt + 1])
        (some (err (attempt + 1))) hI2 (by omega) (by omega)
      simpa [retryGo, h2, hcl, ha] using hrec

/-- Any state invariant preserved by the step holds for the loop's final state. -/
lemma retryGo_state_invariant {σ α : Type} (step : Nat → σ → σ × Except JsError α)
    (classify : JsError → Bool) (maxAttempts : Nat) (J : σ → Prop)
    (hstep : ∀ a s, J s → J (step a s).1) :
    ∀ (fuel attempt : Nat) (s : σ) (slept : List Nat) (lastE : Option JsError),
      J s → J (retryGo step classify maxAttempts fuel attempt s slept lastE).state := by
  intro fuel
  induction fuel with
  | zero => intro attempt s slept lastE hJ; simpa [retryGo] using hJ
  | succ f ih =>
    intro attempt s slept lastE hJ
    have hJ2 := hstep (attempt + 1) s hJ
    rcases h2 : (step (attempt + 1) s).2 with e | v
    · by_cases hcl : classify e = false
      · simpa [retryGo, h2, hcl] using hJ2
      · by_cases hle : maxAttempts ≤ attempt + 1
        · simpa [retryGo, h2, hcl, hle] using hJ2
        · simpa [retryGo, h2, hcl, hle] using
            ih (attempt + 1) (step (attempt + 1) s).1 (slept ++ [attempt + 1]) (some e) hJ2
    · simpa [retryGo, h2] using hJ2

/-- When the loop ends by throwing, the thrown value is the error of its final
attempt, whose post-state is also the loop's final state (provided at least one
iteration remains, which rules out throwing the initial `undefined`). -/
lemma retryGo_error_source {σ α : Type} (step : Nat → σ → σ × Except JsError α)
    (classify : JsError → Bool) (maxAttempts : Nat) :
    ∀ (fuel attempt : Nat) (s : σ) (slept : List Nat) (lastE : Option JsError)
      (eo : Option JsError),
      1 ≤ fuel → fuel + attempt = maxAttempts →
      (retryGo step classify maxAttempts fuel attempt s slept lastE).result = Except.error eo →
      ∃ e a sPrev, eo = some e ∧ (step a sPrev).2 = Except.error e ∧
        (retryGo step classify maxAttempts fuel attempt s slept lastE).state =
          (step a sPrev).1 := by
  intro fuel
  induction fuel with
  | zero => intro attempt s slept lastE eo hf; omega
  | succ f ih =>
    intro attempt s slept lastE eo _ hsum hres
    rcases h2 : (step (attempt + 1) s).2 with e | v
    · by_cases hcl : classify e = false
      · refine ⟨e, attempt + 1, s, ?_, h2, ?_⟩ <;>
          simp [retryGo, h2, hcl] at hres ⊢ <;> simp [hres.symm]
      · by_cases hle : maxAttempts ≤ attempt + 1
        · refine ⟨e, attempt + 1, s, ?_, h2, ?_⟩ <;>
            simp [retryGo, h2, hcl, hle] at hres ⊢ <;> simp [hres.symm]
        · have hrec := ih (attempt + 1) (step (attempt + 1) s).1 (slept ++ [attempt + 1])
            (some e) eo (by omega) (by omega)
          simp only [retryGo, h2, hcl, hle, if_false, if_true] at hres ⊢
          exact hrec (by simpa using hres)
    · simp [retryGo, h2] at hres

/-- Every recorded sleep belongs to an attempt strictly before the final one:
the loop never sleeps after its last attempt. -/
lemma retryGo_slept_lt_attempts {σ α : Type} (step : Nat → σ → σ × Except JsError α)
    (classify : JsError → Bool) (maxAttempts : Nat) :
    ∀ (fuel attempt : Nat) (s : σ) (slept : List Nat) (lastE : Option JsError),
      fuel + attempt = maxAttempts →
      (∀ x ∈ slept, x ≤ attempt) →
      (fuel = 0 → ∀ x ∈ slept, x < attempt) →
      ∀ x ∈ (retryGo step classify maxAttempts fuel attempt s slept lastE).slept,
        x < (retryGo step classify maxAttempts fuel attempt s slept lastE).attempts := by
  intro fuel
  induction fuel with
  | zero =>
    intro attempt s slept lastE _ _ h0
    simpa [retryGo] using h0 rfl
  | succ f ih =>
    intro attempt s slept lastE hsum hle _
    rcases h2 : (step (attempt + 1) s).2 with e | v
    · by_cases hcl : classify e = false
      · intro x hx
        simp [retryGo, h2, hcl] at hx ⊢
        exact Nat.lt_succ_of_le (hle x hx)
      · by_cases hbig : maxAttempts ≤ attempt + 1
        · intro x hx
          simp [retryGo, h2, hcl, hbig] at hx ⊢
          exact Nat.lt_succ_of_le (hle x hx)
        · have hrec := ih (attempt + 1) (step (attempt + 1) s).1 (slept ++ [attempt + 1])
            (some e) (by omega)
            (by
              intro x hx
              rcases List.mem_append.mp hx with hx2 | hx2
              · exact Nat.le_succ_of_le (hle x hx2)
              · simp at hx2
                omega)
            (by intro hf; omega)
          intro x hx
          simp only [retryGo, h2, hcl, if_false, hbig, if_true] at hx ⊢
          exact hrec x hx
    · intro x hx
      simp [retryGo, h2] at hx ⊢
      exact Nat.lt_succ_of_le (hle x hx)

/-- Running `k` consecutive failures from the pristine closed breaker, `k` below the
threshold: still closed, failure count `k`. -/
lemma cbIter_fail_closed (opts : CBOptions) (now : Nat) :
    ∀ k, k < opts.failureThreshold →
      cbIter opts now false k ⟨CircuitState.closed, 0, 0, 0⟩ =
        ⟨CircuitState.closed, k, 0, 0⟩ := by
  intro k
  induction k with
  | zero => intro _; rfl
  | succ n ih =>
    intro hk
    have hn := ih (by omega)
    have hth : ¬ opts.failureThreshold ≤ n + 1 := by omega
    simp [cbIter, hn, cbExecute, onFailure, hth]

/-- Running `k` consecutive successes from a half-open breaker with success count 0,
`k` below the threshold: still half-open, success count `k`. -/
lemma cbIter_succ_halfOpen (opts : CBOptions) (now : Nat) (fc nat0 : Nat) :
    ∀ k, k < opts.successThreshold →
      cbIter opts now true k ⟨CircuitState.halfOpen, fc, 0, nat0⟩ =
        ⟨CircuitState.halfOpen, fc, k, nat0⟩ := by
  intro k
  induction k with
  | zero => intro _; rfl
  | succ n ih =>
    intro hk
    have hn := ih (by omega)
    have hth : ¬ opts.successThreshold ≤ n + 1 := by omega
    simp [cbIter, hn, cbExecute, onSuccess, hth]

/-- A processor throw on an attempt where the record decodes, validates and
routes: the attempt rethrows the processor error, and any eventId the event
carries ends the attempt unmarked (admission is re-established for the next
attempt). -/
lemma processRecordStep_processor_error (cfg : IdemConfig) (r : RecordModel)
    (a now : Nat) (ev : DecodedEvent) (e : JsError) (tr : Tracker)
    (hdec : r.decode = Except.ok ev)
    (hval : r.validation.isValid = true)
    (hproc : r.hasMatchingProcessor = true)
    (hfa : r.processorFails a = some e)
    (hadm : ∀ eid, ev.eventId = some eid → tGet tr eid = none) :
    (processRecordStep cfg r a now tr).result = Except.error e ∧
    (∀ eid, ev.eventId = some eid →
      tGet (processRecordStep cfg r a now tr).tracker eid = none) := by
  rcases hE : ev.eventId with - | eid
  · rcases hU : ev.userId with - | uid
    · constructor
      · simp [processRecordStep, hdec, hE, hU, processRecordAfterDedup, hval, hproc, hfa]
      · intro eid2 h2; exact Option.noConfusion h2
    · constructor
      · simp [processRecordStep, hdec, hE, hU, processRecordAfterDedup, hval, hproc, hfa]
      · intro eid2 h2; exact Option.noConfusion h2
  · have ht : tGet tr eid = none := hadm eid hE
    rcases hU : ev.userId with - | uid
    · constructor
      · simp [processRecordStep, hdec, hE, hU, processRecordAfterDedup, hval, hproc, hfa]
      · intro eid2 h2
        injection h2 with h3
        subst h3
        simp [processRecordStep, hdec, hE, hU, processRecordAfterDedup, hval, hproc, hfa,
          unmarkProcessed, tGet_tDel_self]
    · constructor
      · simp [processRecordStep, hdec, hE, hU, checkAndMarkInProgress, ht,
          processRecordAfterDedup, hval, hproc, hfa]
      · intro eid2 h2
        injection h2 with h3
        subst h3
        simp [processRecordStep, hdec, hE, hU, checkAndMarkInProgress, ht,
          processRecordAfterDedup, hval, hproc, hfa, unmarkProcessed, tGet_tDel_self]

/-- Any attempt that throws something other than a skip must have come from the
processor invocation, which always unmarks the eventId first (when present). -/
lemma processRecordStep_error_unmarked (cfg : IdemConfig) (r : RecordModel)
    (a now : Nat) (tr : Tracker) (ev : DecodedEvent) (eid : String) (e : JsError)
    (hdec : r.decode = Except.ok ev)
    (heid : ev.eventId = some eid)
    (hres : (processRecordStep cfg r a now tr).result = Except.error e)
    (hns : e.isSkippedRecordError = false) :
    tGet (processRecordStep cfg r a now tr).tracker eid = none := by
  have skipmark : ∀ msg, ¬ (e = skippedRecordError msg) := by
    intro msg hmsg
    rw [hmsg] at hns
    simp [skippedRecordError] at hns
  rcases hU : ev.userId with - | uid
  · -- no idempotency check; straight to validation/processing
    simp only [processRecordStep, hdec, heid, hU] at hres ⊢
    by_cases hv : r.validation.isValid = false
    · simp [processRecordAfterDedup, hv] at hres
      exact absurd hres.symm (skipmark _)
    · by_cases hp : r.hasMatchingProcessor
      · rcases hfa : r.processorFails a with - | e2
        · simp [processRecordAfterDedup, hv, hp, hfa] at hres
        · simp [processRecordAfterDedup, hv, hp, hfa] at hres ⊢
          simp [unmarkProcessed, tGet_tDel_self]
      · simp [processRecordAfterDedup, hv, hp] at hres
        exact absurd hres.symm (skipmark _)
  · -- idempotency check first
    rcases hmark : checkAndMarkInProgress cfg now tr eid uid with ⟨adm, tr2⟩
    rcases adm with - | -
    · -- refused: the duplicate skip was thrown, contradicting hns
      simp [processRecordStep, hdec, heid, hU, hmark] at hres
      exact absurd hres.symm (skipmark _)
    · simp only [processRecordStep, hdec, heid, hU, hmark] at hres ⊢
      by_cases hv : r.validation.isValid = false
      · simp [processRecordAfterDedup, hv] at hres
        exact absurd hres.symm (skipmark _)
      · by_cases hp : r.hasMatchingProcessor
        · rcases hfa : r.processorFails a with - | e2
          · simp [processRecordAfterDedup, hv, hp, hfa] at hres
          · simp [processRecordAfterDedup, hv, hp, hfa] at hres ⊢
            simp [unmarkProcessed, tGet_tDel_self]
        · simp [processRecordAfterDedup, hv, hp] at hres
          exact absurd hres.symm (skipmark _)

/-- Shape of the post-dedup part of an attempt: the tracker-op trace is only
ever extended by an unmark of the carried eventId, the tracker only ever loses
that key, and the processor is invoked exactly when validation passes and a
processor matches. -/
lemma processRecordAfterDedup_shape (r : RecordModel) (a : Nat) (eidOpt : Option String)
    (tr : Tracker) (ops : List TrackerOp) :
    ((processRecordAfterDedup r a eidOpt tr ops).ops = ops ∨
      ∃ eid, eidOpt = some eid ∧
        (processRecordAfterDedup r a eidOpt tr ops).ops = ops ++ [TrackerOp.unmark eid]) ∧
    ((processRecordAfterDedup r a eidOpt tr ops).tracker = tr ∨
      ∃ eid, eidOpt = some eid ∧
        (processRecordAfterDedup r a eidOpt tr ops).tracker = tDel tr eid) ∧
    (processRecordAfterDedup r a eidOpt tr ops).procInvoked =
      (r.validation.isValid && r.hasMatchingProcessor) := by
  by_cases hv : r.validation.isValid = false
  · rcases eidOpt with - | eid
    · refine ⟨Or.inl ?_, Or.inl ?_, ?_⟩ <;> simp [processRecordAfterDedup, hv]
    · refine ⟨Or.inr ⟨eid, rfl, ?_⟩, Or.inr ⟨eid, rfl, ?_⟩, ?_⟩ <;>
        simp [processRecordAfterDedup, hv, unmarkProcessed]
  · have hv2 : r.validation.isValid = true := by
      revert hv
      rcases r.validation.isValid with - | - <;> simp
    by_cases hp : r.hasMatchingProcessor
    · rcases hfa : r.processorFails a with - | e2
      · refine ⟨Or.inl ?_, Or.inl ?_, ?_⟩ <;>
          simp [processRecordAfterDedup, hv2, hp, hfa]
      · rcases eidOpt with - | eid
        · refine ⟨Or.inl ?_, Or.inl ?_, ?_⟩ <;>
            simp [processRecordAfterDedup, hv2, hp, hfa]
        · refine ⟨Or.inr ⟨eid, rfl, ?_⟩, Or.inr ⟨eid, rfl, ?_⟩, ?_⟩ <;>
            simp [processRecordAfterDedup, hv2, hp, hfa, unmarkProcessed]
    · refine ⟨Or.inl ?_, Or.inl ?_, ?_⟩ <;>
        simp [processRecordAfterDedup, hv2, hp]

/-- When the decoded event misses the eventId or the userId, an attempt makes
no `checkAndMarkInProgress` call, only ever removes tracker entries, and hands
the record to validation/processing unconditionally (the processor is invoked
exactly when validation passes and a processor matches). -/
lemma processRecordStep_missing_ids (cfg : IdemConfig) (r : RecordModel)
    (a now : Nat) (tr : Tracker) (ev : DecodedEvent)
    (hdec : r.decode = Except.ok ev)
    (hmiss : ev.eventId = none ∨ ev.userId = none) :
    (processRecordStep cfg r a now tr).ops.all (fun op => !op.isCheckAndMark) = true ∧
    (∀ p ∈ (processRecordStep cfg r a now tr).tracker, p ∈ tr) ∧
    (processRecordStep cfg r a now tr).procInvoked =
      (r.validation.isValid && r.hasMatchingProcessor) := by
  have hstep : processRecordStep cfg r a now tr =
      processRecordAfterDedup r a ev.eventId tr [] := by
    rcases hE : ev.eventId with - | eid
    · rcases hU : ev.userId with - | uid <;> simp [processRecordStep, hdec, hE, hU]
    · rcases hU : ev.userId with - | uid
      · simp [processRecordStep, hdec, hE, hU]
      · rcases hmiss with h | h
        · rw [hE] at h; exact Option.noConfusion h
        · rw [hU] at h; exact Option.noConfusion h
  obtain ⟨hops, htr, hinv⟩ := processRecordAfterDedup_shape r a ev.eventId tr []
  rw [hstep]
  refine ⟨?_, ?_, hinv⟩
  · rcases hops with h | ⟨eid, -, h⟩ <;> simp [h, TrackerOp.isCheckAndMark]
  · rcases htr with h | ⟨eid, -, h⟩
    · rw [h]; intro p hp; exact hp
    · rw [h]; intro p hp; exact List.mem_of_mem_filter hp

/-- A first attempt that resolves: one invocation of the operation, reported
success, the attempt's tracker effects retained, no sleeps. -/
lemma processRecordWithRetry_first_ok (cfg : IdemConfig) (maxAttempts now : Nat)
    (r : RecordModel) (tr : Tracker)
    (hm : 1 ≤ maxAttempts)
    (hok : (processRecordStep cfg r 1 now tr).result = Except.ok ()) :
    processRecordWithRetry cfg maxAttempts now r tr =
      ⟨⟨r, true, none, getCorrelationId r, 1⟩,
       (processRecordStep cfg r 1 now tr).tracker,
       (processRecordStep cfg r 1 now tr).ops,
       (if (processRecordStep cfg r 1 now tr).procInvoked then 1 else 0),
       []⟩ := by
  rcases maxAttempts with - | m
  · omega
  · unfold processRecordWithRetry retryWithBackoff
    simp [retryGo, pipeStep, hok]

/-- A first attempt that throws a non-retryable skip: reported success after a
single invocation. -/
lemma processRecordWithRetry_first_skip (cfg : IdemConfig) (maxAttempts now : Nat)
    (r : RecordModel) (tr : Tracker) (e : JsError)
    (hm : 1 ≤ maxAttempts)
    (herr : (processRecordStep cfg r 1 now tr).result = Except.error e)
    (hskip : e.isSkippedRecordError = true)
    (hcl : defaultClassify e = false) :
    processRecordWithRetry cfg maxAttempts now r tr =
      ⟨⟨r, true, none, getCorrelationId r, 1⟩,
       (processRecordStep cfg r 1 now tr).tracker,
       (processRecordStep cfg r 1 now tr).ops,
       (if (processRecordStep cfg r 1 now tr).procInvoked then 1 else 0),
       []⟩ := by
  rcases maxAttempts with - | m
  · omega
  · unfold processRecordWithRetry retryWithBackoff
    simp [retryGo, pipeStep, herr, hcl, hskip]

/-- A first attempt that throws a non-retryable non-skip error: reported
failure with that error after a single invocation. -/
lemma processRecordWithRetry_first_fail (cfg : IdemConfig) (maxAttempts now : Nat)
    (r : RecordModel) (tr : Tracker) (e : JsError)
    (hm : 1 ≤ maxAttempts)
    (herr : (processRecordStep cfg r 1 now tr).result = Except.error e)
    (hskip : e.isSkippedRecordError = false)
    (hcl : defaultClassify e = false) :
    processRecordWithRetry cfg maxAttempts now r tr =
      ⟨⟨r, false, some e, getCorrelationId r, 1⟩,
       (processRecordStep cfg r 1 now tr).tracker,
       (processRecordStep cfg r 1 now tr).ops,
       (if (processRecordStep cfg r 1 now tr).procInvoked then 1 else 0),
       []⟩ := by
  rcases maxAttempts with - | m
  · omega
  · unfold processRecordWithRetry retryWithBackoff
    simp [retryGo, pipeStep, herr, hcl, hskip]

/-- The handler's classifier never retries a `SkippedRecordError` (its name
matches none of the default transient identifiers). -/
lemma defaultClassify_skipped (msg : String) :
    defaultClassify (skippedRecordError msg) = false := by
  simp only [defaultClassify, isRetryableError, skippedRecordError, errorIdentifier]
  decide

/-- A record whose payload does not decode fails its (single) attempt with the
decode error, touching neither the tracker nor the processor. -/
lemma processRecordStep_decode_error (cfg : IdemConfig) (r : RecordModel)
    (a now : Nat) (tr : Tracker) (e : JsError)
    (hdec : r.decode = Except.error e) :
    processRecordStep cfg r a now tr = ⟨tr, [], false, Except.error e⟩ := by
  simp [processRecordStep, hdec]

/-- Processing any batch containing a record with an undecodable payload (whose
decode error is neither a skip nor retryable) yields the corresponding failed
result. -/
lemma runRecords_mem_decode_error (cfg : IdemConfig) (maxAttempts now : Nat)
    (r : RecordModel) (e : JsError)
    (hm : 1 ≤ maxAttempts) (hdec : r.decode = Except.error e)
    (hskip : e.isSkippedRecordError = false) (hcl : defaultClassify e = false) :
    ∀ (records : List RecordModel) (tr : Tracker), r ∈ records →
      (⟨r, false, some e, getCorrelationId r, 1⟩ : ProcessingResultM) ∈
        (runRecords cfg maxAttempts now records tr).1 := by
  intro records
  induction records with
  | nil => intro tr hmem; cases hmem
  | cons r2 rs ih =>
    intro tr hmem
    rcases List.mem_cons.mp hmem with heq | htail
    · subst heq
      have hrun := processRecordWithRetry_first_fail cfg maxAttempts now r tr e hm
        (by rw [processRecordStep_decode_error cfg r 1 now tr e hdec]) hskip hcl
      simp [runRecords, hrun]
    · simp only [runRecords]
      exact List.mem_cons_of_mem _ (ih _ htail)

/-- Projections of `processRecordWithRetry` onto its retry run: the tracker,
op trace, invocation count and sleeps are those of the loop's final state, and
the reported attempt count is the loop's invocation count. -/
lemma processRecordWithRetry_proj (cfg : IdemConfig) (maxAttempts now : Nat)
    (r : RecordModel) (tr : Tracker) :
    (processRecordWithRetry cfg maxAttempts now r tr).tracker =
      (retryWithBackoff (pipeStep cfg r now) defaultClassify maxAttempts
        ⟨tr, [], 0⟩).state.tracker ∧
    (processRecordWithRetry cfg maxAttempts now r tr).ops =
      (retryWithBackoff (pipeStep cfg r now) defaultClassify maxAttempts
        ⟨tr, [], 0⟩).state.ops ∧
    (processRecordWithRetry cfg maxAttempts now r tr).res.attemptCount =
      (retryWithBackoff (pipeStep cfg r now) defaultClassify maxAttempts
        ⟨tr, [], 0⟩).attempts := by
  unfold processRecordWithRetry
  rcases h : (retryWithBackoff (pipeStep cfg r now) defaultClassify maxAttempts
      ⟨tr, [], 0⟩).result with e | v
  · rcases e with - | e
    · simp [h]
    · by_cases hs : e.isSkippedRecordError <;> simp [h, hs]
  · simp [h]

/-- Fallback extraction of a `processBatch` result (the error case never
arises; see `processBatch_ok`). -/
def batchOutOr (x : Except JsError BatchOut) : BatchOut :=
  match x with
  | Except.ok o => o
  | Except.error _ => ⟨[], [], [], [], []⟩

/-- C1: for every batch in which at least one record succeeds, processBatch
performs exactly one checkpoint save, whose sequence number is that of the
last record in original input order that is in the successes set; for a batch
with no failures this is the last (highest-index) input record. -/
theorem processBatch_checkpoints_last_success (cfg : IdemConfig) (maxAttempts now : Nat)
    (records : List RecordModel) (tr : Tracker) (saveResult : Except JsError Unit)
    (out : BatchOut)
    (h : processBatch cfg maxAttempts now records tr saveResult = Except.ok out)
    (lastS : ProcessingResultM)
    (hlast : (out.results.filter (fun x => x.success)).getLast? = some lastS)
    (rlast : RecordModel) :
    out.checkpointCalls = [mkCheckpoint lastS.record now] ∧
    ((∀ x ∈ out.results, x.success = true) → records.getLast? = some rlast →
      lastS.record = rlast) := by
  rw [processBatch_ok] at h
  injection h with h2
  subst h2
  simp only [batchSuccesses] at *
  constructor
  · simp only [hlast]
  · intro hall hr
    have hfeq : (batchResults cfg maxAttempts now records tr).filter (fun x => x.success) =
        batchResults cfg maxAttempts now records tr :=
      List.filter_eq_self.mpr (fun a ha => hall a ha)
    rw [hfeq] at hlast
    have hmap := runRecords_map_record cfg maxAttempts now records tr
    have : records.getLast? = some lastS.record := by
      rw [← hmap, List.getLast?_map]
      unfold batchResults at hlast
      rw [hlast]
      rfl
    rw [this] at hr
    exact Option.some.inj hr

/-- Record used to witness C1: decodes (no dedup ids), validates, has a
matching processor which succeeds on the first attempt. -/
def recW : RecordModel :=
  ⟨"5", none, none, "uuid-w", Except.ok ⟨none, none⟩, ⟨true, some "T", none⟩, true,
    fun _ => none⟩

theorem processBatch_checkpoints_last_success_witness :
    (batchOutOr (processBatch defaultIdemConfig 3 7 [recW] []
      (Except.ok ()))).checkpointCalls = [mkCheckpoint recW 7] :=
  (processBatch_checkpoints_last_success defaultIdemConfig 3 7 [recW] [] (Except.ok ())
    (batchOutOr (processBatch defaultIdemConfig 3 7 [recW] [] (Except.ok ()))) rfl
    ⟨recW, true, none, "uuid-w", 1⟩ rfl recW).1

/-- The error `JSON.parse` throws on a malformed payload. -/
def parseErrorJs : JsError := ⟨"SyntaxError", "Unexpected token", none, false⟩

/-- Record used to refute C2: its payload does not parse; everything else
about it is benign. -/
def recBadC2 : RecordModel :=
  ⟨"1", none, none, "uuid-2", Except.error parseErrorJs, ⟨true, some "T", none⟩, true,
    fun _ => none⟩

/-- C2 (counterexample): a record whose payload fails to parse is NOT treated
as a swallowed validation failure — its sequence number appears in the
returned failedIdentifiers and a dead-letter entry is produced for it. -/
theorem processBatch_parse_failure_counterexample :
    (processBatch defaultIdemConfig 3 0 [recBadC2] [] (Except.ok ())).toOption.map
      (fun o => (o.failedIdentifiers,
        o.dlqBatches.map (fun b => b.map (fun x => x.attemptCount)))) =
    some (["1"], [[1]]) := rfl

/-- C2 (amended): for every record whose payload fails to decode or parse, the
parse error propagates out of the attempt (it is not a SkippedRecordError), so
the record is reported as a failure: its sequenceNumber appears in the returned
failedIdentifiers and it is sent to the dead-letter sink (with a single attempt,
the parse error not being classified retryable). -/
theorem processBatch_parse_failure_reported_failed (cfg : IdemConfig)
    (maxAttempts now : Nat) (records : List RecordModel) (tr : Tracker)
    (saveResult : Except JsError Unit) (r : RecordModel) (e : JsError) (out : BatchOut)
    (hm : 1 ≤ maxAttempts)
    (hmem : r ∈ records)
    (hdec : r.decode = Except.error e)
    (hskip : e.isSkippedRecordError = false)
    (hcl : defaultClassify e = false)
    (h : processBatch cfg maxAttempts now records tr saveResult = Except.ok out) :
    r.sequenceNumber ∈ out.failedIdentifiers ∧
    ∃ b ∈ out.dlqBatches, ∃ x ∈ b, x.record = r ∧ x.error = e ∧ x.attemptCount = 1 := by
  rw [processBatch_ok] at h
  injection h with h2
  subst h2
  have hres := runRecords_mem_decode_error cfg maxAttempts now r e hm hdec hskip hcl
    records tr hmem
  have hfail : (⟨r, false, some e, getCorrelationId r, 1⟩ : ProcessingResultM) ∈
      batchFailures cfg maxAttempts now records tr := by
    unfold batchFailures
    exact List.mem_filter.mpr ⟨hres, by simp⟩
  constructor
  · simp only []
    exact List.mem_map.mpr ⟨_, hfail, rfl⟩
  · have hlen : 0 < (batchFailures cfg maxAttempts now records tr).length :=
      List.length_pos.mpr (List.ne_nil_of_mem hfail)
    refine ⟨(batchFailures cfg maxAttempts now records tr).map mkDLQEntry, ?_, ?_⟩
    · simp only [hlen, if_pos]
      exact List.mem_singleton.mpr rfl
    · exact ⟨mkDLQEntry ⟨r, false, some e, getCorrelationId r, 1⟩,
        List.mem_map.mpr ⟨_, hfail, rfl⟩, rfl, rfl, rfl⟩

theorem processBatch_parse_failure_witness :
    "1" ∈ (batchOutOr (processBatch defaultIdemConfig 3 0 [recBadC2] []
        (Except.ok ()))).failedIdentifiers ∧
    recBadC2.sequenceNumber = "1" :=
  ⟨(processBatch_parse_failure_reported_failed defaultIdemConfig 3 0 [recBadC2] []
      (Except.ok ()) recBadC2 parseErrorJs
      (batchOutOr (processBatch defaultIdemConfig 3 0 [recBadC2] [] (Except.ok ())))
      (by omega) (List.mem_singleton.mpr rfl) rfl rfl (by decide) rfl).1, rfl⟩

/-- A generic error: name `Error`, no code — carries no specific identifier. -/
def genericError : JsError := ⟨"Error", "boom", none, false⟩

/-- An error with a specific but unrecognized identifier. -/
def customError : JsError := ⟨"CustomError", "boom", none, false⟩

/-- C3 (counterexample): an error with no recognized identifier (no transient
code/name, no validation phrase, no skip signal) is NOT classified retryable:
the module's classifier rejects both a generic `Error` and an error with an
unrecognized specific name (the alternate classifier also rejects the latter),
and the executor throws after a single invocation instead of retrying. -/
theorem isRetryableError_unrecognized_counterexample :
    isRetryableError (some genericError) defaultRetryableErrors = false ∧
    isRetryableError (some customError) defaultRetryableErrors = false ∧
    isRetryableErrorV2 (some customError) = false ∧
    (retryWithBackoff (fun _ x => (x, (Except.error genericError : Except JsError Unit)))
      defaultClassify 3 ()).attempts = 1 := by
  refine ⟨by decide, by decide, by decide, by decide⟩

/-- C3 (amended): in src/utils/retry.ts classification is fail-closed: only an
error whose code/name contains a recognized transient identifier is retryable;
every other error — including a generic one with no specific identifier — is
classified non-retryable and rethrown immediately after the first attempt. -/
theorem retry_fail_closed_unrecognized (e : JsError) (maxAttempts : Nat)
    (step : Nat → Unit → Unit × Except JsError Unit)
    (hm : 1 ≤ maxAttempts)
    (hcl : isRetryableError (some e) defaultRetryableErrors = false)
    (hstep : step 1 () = ((), Except.error e)) :
    (retryWithBackoff step defaultClassify maxAttempts ()).attempts = 1 ∧
    (retryWithBackoff step defaultClassify maxAttempts ()).result =
      Except.error (some e) := by
  rcases maxAttempts with - | m
  · omega
  · have hc2 : defaultClassify e = false := hcl
    unfold retryWithBackoff
    simp [retryGo, hstep, hc2]

theorem retry_fail_closed_witness :
    (retryWithBackoff (fun _ x => (x, (Except.error customError : Except JsError Unit)))
      defaultClassify 3 ()).attempts = 1 ∧
    (retryWithBackoff (fun _ x => (x, (Except.error customError : Except JsError Unit)))
      defaultClassify 3 ()).result = Except.error (some customError) :=
  retry_fail_closed_unrecognized customError 3 _ (by omega) (by decide) rfl

/-- The per-record run when the processor fails every attempt with a
retryable-classified error: reported failed with `attemptCount = maxAttempts`
and the last error. -/
lemma processRecordWithRetry_exhausted (cfg : IdemConfig) (maxAttempts now : Nat)
    (r : RecordModel) (ev : DecodedEvent) (tr0 : Tracker) (perr : Nat → JsError)
    (hm : 1 ≤ maxAttempts)
    (hdec : r.decode = Except.ok ev)
    (hval : r.validation.isValid = true)
    (hproc : r.hasMatchingProcessor = true)
    (hfail : ∀ a, r.processorFails a = some (perr a))
    (hpcl : ∀ a, defaultClassify (perr a) = true)
    (hns : (perr maxAttempts).isSkippedRecordError = false)
    (hadm : ∀ eid, ev.eventId = some eid → tGet tr0 eid = none) :
    (processRecordWithRetry cfg maxAttempts now r tr0).res.success = false ∧
    (processRecordWithRetry cfg maxAttempts now r tr0).res.error =
      some (perr maxAttempts) ∧
    (processRecordWithRetry cfg maxAttempts now r tr0).res.attemptCount = maxAttempts := by
  have hpipe := retryGo_all_retryable_fail (pipeStep cfg r now) defaultClassify maxAttempts
    perr (fun ps => ∀ eid, ev.eventId = some eid → tGet ps.tracker eid = none)
    (by
      intro a ps hI
      obtain ⟨h1, h2⟩ := processRecordStep_processor_error cfg r a now ev (perr a)
        ps.tracker hdec hval hproc (hfail a) hI
      exact ⟨by simpa [pipeStep] using h1, by simpa [pipeStep] using h2⟩)
    hpcl maxAttempts 0 ⟨tr0, [], 0⟩ [] none hadm (by omega) hm
  have hres : (retryWithBackoff (pipeStep cfg r now) defaultClassify maxAttempts
      ⟨tr0, [], 0⟩).result = Except.error (some (perr maxAttempts)) := hpipe.2.1
  have hatt : (retryWithBackoff (pipeStep cfg r now) defaultClassify maxAttempts
      ⟨tr0, [], 0⟩).attempts = maxAttempts := hpipe.1
  refine ⟨?_, ?_, ?_⟩ <;> simp [processRecordWithRetry, hres, hns, hatt]

/-- C4: an operation failing on every attempt with a retryable-classified error
is invoked exactly maxAttempts times and the last error is then rethrown; the
corresponding record is reported failed with attemptCount = maxAttempts and the
dead-letter batch carries that attemptCount. -/
theorem retry_exhausts_budget (op : Nat → Except JsError Unit) (err : Nat → JsError)
    (retryable : List String) (cfg : IdemConfig) (maxAttempts now : Nat)
    (r : RecordModel) (ev : DecodedEvent) (tr0 : Tracker) (perr : Nat → JsError)
    (saveResult : Except JsError Unit) (out : BatchOut)
    (hm : 1 ≤ maxAttempts)
    (hop : ∀ a, op a = Except.error (err a))
    (hcl : ∀ a, isRetryableError (some (err a)) retryable = true)
    (hdec : r.decode = Except.ok ev)
    (hval : r.validation.isValid = true)
    (hproc : r.hasMatchingProcessor = true)
    (hfail : ∀ a, r.processorFails a = some (perr a))
    (hpcl : ∀ a, defaultClassify (perr a) = true)
    (hns : (perr maxAttempts).isSkippedRecordError = false)
    (hadm : ∀ eid, ev.eventId = some eid → tGet tr0 eid = none)
    (h : processBatch cfg maxAttempts now [r] tr0 saveResult = Except.ok out) :
    (retryWithBackoff (fun a x => (x, op a))
      (fun e2 => isRetryableError (some e2) retryable) maxAttempts ()).attempts =
        maxAttempts ∧
    (retryWithBackoff (fun a x => (x, op a))
      (fun e2 => isRetryableError (some e2) retryable) maxAttempts ()).result =
        Except.error (some (err maxAttempts)) ∧
    out.results.map (fun x => (x.success, x.attemptCount)) = [(false, maxAttempts)] ∧
    out.failedIdentifiers = [r.sequenceNumber] ∧
    out.dlqBatches.map (fun b => b.map (fun x => x.attemptCount)) = [[maxAttempts]] := by
  have hexec := retryGo_all_retryable_fail (fun a x => (x, op a))
    (fun e2 => isRetryableError (some e2) retryable) maxAttempts err (fun _ => True)
    (by intro a s _; exact ⟨by simpa using hop a, trivial⟩)
    hcl maxAttempts 0 () [] none trivial (by omega) hm
  obtain ⟨hsucc, herr2, hatt⟩ := processRecordWithRetry_exhausted cfg maxAttempts now r ev
    tr0 perr hm hdec hval hproc hfail hpcl hns hadm
  rw [processBatch_ok] at h
  injection h with h2
  subst h2
  have hresults : batchResults cfg maxAttempts now [r] tr0 =
      [(processRecordWithRetry cfg maxAttempts now r tr0).res] := by
    simp [batchResults, runRecords]
  have hfilter : batchFailures cfg maxAttempts now [r] tr0 =
      [(processRecordWithRetry cfg maxAttempts now r tr0).res] := by
    simp [batchFailures, hresults, List.filter, hsucc]
  refine ⟨hexec.1, hexec.2.1, ?_, ?_, ?_⟩
  · simp [hresults, hsucc, hatt]
  · simp [hfilter, processRecordWithRetry_record]
  · simp [hfilter, mkDLQEntry, hatt]

/-- A transient error (recognized retryable identifier). -/
def etimedoutError : JsError := ⟨"ETIMEDOUT", "timed out", none, false⟩

/-- Record used to witness C4: decodes with both dedup ids, validates, routes,
and its processor fails every attempt with a transient error. -/
def recC4 : RecordModel :=
  ⟨"9", none, none, "uuid-4", Except.ok ⟨some "e4", some "u4"⟩, ⟨true, some "T", none⟩,
    true, fun _ => some etimedoutError⟩

theorem retry_exhausts_budget_witness :
    (retryWithBackoff (fun a x => (x, (fun _ => Except.error etimedoutError : Nat → Except JsError Unit) a))
      (fun e2 => isRetryableError (some e2) defaultRetryableErrors) 3 ()).attempts = 3 ∧
    (retryWithBackoff (fun a x => (x, (fun _ => Except.error etimedoutError : Nat → Except JsError Unit) a))
      (fun e2 => isRetryableError (some e2) defaultRetryableErrors) 3 ()).result =
        Except.error (some ((fun _ => etimedoutError : Nat → JsError) 3)) ∧
    (batchOutOr (processBatch defaultIdemConfig 3 0 [recC4] [] (Except.ok ()))).results.map
      (fun x => (x.success, x.attemptCount)) = [(false, 3)] ∧
    (batchOutOr (processBatch defaultIdemConfig 3 0 [recC4] [] (Except.ok ()))).failedIdentifiers =
      [recC4.sequenceNumber] ∧
    (batchOutOr (processBatch defaultIdemConfig 3 0 [recC4] [] (Except.ok ()))).dlqBatches.map
      (fun b => b.map (fun x => x.attemptCount)) = [[3]] :=
  retry_exhausts_budget (fun _ => Except.error etimedoutError) (fun _ => etimedoutError)
    defaultRetryableErrors defaultIdemConfig 3 0 recC4 ⟨some "e4", some "u4"⟩ []
    (fun _ => etimedoutError) (Except.ok ())
    (batchOutOr (processBatch defaultIdemConfig 3 0 [recC4] [] (Except.ok ())))
    (by omega) (fun a => rfl)
    (fun a => (by decide :
      isRetryableError (some etimedoutError) defaultRetryableErrors = true))
    rfl rfl rfl (fun a => rfl)
    (fun a => (by decide : defaultClassify etimedoutError = true))
    rfl (fun eid he => rfl) rfl

/-- C5: two records carrying the identical dedup key, the second processed
while the first's mark is unexpired, yield exactly one processor invocation
(the second is reported success with the processor never invoked); and
checkAndMarkInProgress admits-and-inserts on an absent-or-expired key and
refuses-without-modifying on a present-unexpired key. -/
theorem idempotent_duplicate_skipped (cfg : IdemConfig) (maxAttempts now1 now2 : Nat)
    (trA : Tracker) (rA rB : RecordModel) (eid uid uidB : String)
    (m1 : Tracker) (k1 u1 : String) (t1 : Nat)
    (m2 : Tracker) (k2 u2 : String) (t2 : Nat) (en2 : IdemEntry)
    (hm : 1 ≤ maxAttempts)
    (hA : rA.decode = Except.ok ⟨some eid, some uid⟩)
    (hAv : rA.validation.isValid = true)
    (hAp : rA.hasMatchingProcessor = true)
    (hA1 : rA.processorFails 1 = none)
    (htr : tGet trA eid = none)
    (hB : rB.decode = Except.ok ⟨some eid, some uidB⟩)
    (hexp : isExpired cfg ⟨now1, uid⟩ now2 = false)
    (h1abs : tGet m1 k1 = none ∨ ∃ en, tGet m1 k1 = some en ∧ isExpired cfg en t1 = true)
    (h2pres : tGet m2 k2 = some en2) (h2un : isExpired cfg en2 t2 = false) :
    (processRecordWithRetry cfg maxAttempts now1 rA trA).procInvocations = 1 ∧
    (processRecordWithRetry cfg maxAttempts now1 rA trA).res.success = true ∧
    (processRecordWithRetry cfg maxAttempts now2 rB
      (processRecordWithRetry cfg maxAttempts now1 rA trA).tracker).procInvocations = 0 ∧
    (processRecordWithRetry cfg maxAttempts now2 rB
      (processRecordWithRetry cfg maxAttempts now1 rA trA).tracker).res.success = true ∧
    (checkAndMarkInProgress cfg t1 m1 k1 u1).1 = true ∧
    tGet (checkAndMarkInProgress cfg t1 m1 k1 u1).2 k1 = some ⟨t1, u1⟩ ∧
    checkAndMarkInProgress cfg t2 m2 k2 u2 = (false, m2) := by
  have stepA : processRecordStep cfg rA 1 now1 trA =
      ⟨tSet trA eid ⟨now1, uid⟩, [TrackerOp.checkAndMark eid uid true], true,
        Except.ok ()⟩ := by
    simp [processRecordStep, hA, checkAndMarkInProgress, htr, processRecordAfterDedup,
      hAv, hAp, hA1]
  have runA := processRecordWithRetry_first_ok cfg maxAttempts now1 rA trA hm
    (by rw [stepA])
  have htrB : tGet (processRecordWithRetry cfg maxAttempts now1 rA trA).tracker eid =
      some ⟨now1, uid⟩ := by
    rw [runA, stepA]
    exact tGet_tSet_self trA eid ⟨now1, uid⟩
  have stepB : (processRecordStep cfg rB 1 now2
      (processRecordWithRetry cfg maxAttempts now1 rA trA).tracker).result =
      Except.error (skippedRecordError "Duplicate event") := by
    simp [processRecordStep, hB, checkAndMarkInProgress, htrB, hexp]
  have runB := processRecordWithRetry_first_skip cfg maxAttempts now2 rB
    (processRecordWithRetry cfg maxAttempts now1 rA trA).tracker
    (skippedRecordError "Duplicate event") hm stepB rfl (defaultClassify_skipped _)
  have stepB2 : processRecordStep cfg rB 1 now2
      (processRecordWithRetry cfg maxAttempts now1 rA trA).tracker =
      ⟨(processRecordWithRetry cfg maxAttempts now1 rA trA).tracker,
        [TrackerOp.checkAndMark eid uidB false], false,
        Except.error (skippedRecordError "Duplicate event")⟩ := by
    simp [processRecordStep, hB, checkAndMarkInProgress, htrB, hexp]
  refine ⟨?_, ?_, ?_, ?_, ?_, ?_, ?_⟩
  · simp [runA, stepA]
  · rw [runA]
  · simp [runB, stepB2]
  · rw [runB]
  · rcases h1abs with habs | ⟨en, hpres, hexp1⟩
    · simp [checkAndMarkInProgress, habs]
    · simp [checkAndMarkInProgress, hpres, hexp1]
  · rcases h1abs with habs | ⟨en, hpres, hexp1⟩
    · simp [checkAndMarkInProgress, habs, tGet_tSet_self]
    · simp [checkAndMarkInProgress, hpres, hexp1, tGet_tSet_self]
  · simp [checkAndMarkInProgress, h2pres, h2un]

/-- First delivery of the duplicated event (processor succeeds). -/
def recA5 : RecordModel :=
  ⟨"a1", none, none, "uA", Except.ok ⟨some "e5", some "u5"⟩, ⟨true, some "T", none⟩,
    true, fun _ => none⟩

/-- Redelivery with the identical dedup key. -/
def recB5 : RecordModel :=
  ⟨"a2", none, none, "uB", Except.ok ⟨some "e5", some "u5"⟩, ⟨true, some "T", none⟩,
    true, fun _ => none⟩

theorem idempotent_duplicate_skipped_witness :
    (processRecordWithRetry defaultIdemConfig 3 0 recA5 []).procInvocations = 1 ∧
    (processRecordWithRetry defaultIdemConfig 3 0 recA5 []).res.success = true ∧
    (processRecordWithRetry defaultIdemConfig 3 10 recB5
      (processRecordWithRetry defaultIdemConfig 3 0 recA5 []).tracker).procInvocations = 0 ∧
    (processRecordWithRetry defaultIdemConfig 3 10 recB5
      (processRecordWithRetry defaultIdemConfig 3 0 recA5 []).tracker).res.success = true ∧
    (checkAndMarkInProgress defaultIdemConfig 0 [] "k1" "v1").1 = true ∧
    tGet (checkAndMarkInProgress defaultIdemConfig 0 [] "k1" "v1").2 "k1" =
      some ⟨0, "v1"⟩ ∧
    checkAndMarkInProgress defaultIdemConfig 6 [("k2", ⟨5, "x"⟩)] "k2" "v2" =
      (false, [("k2", ⟨5, "x"⟩)]) :=
  idempotent_duplicate_skipped defaultIdemConfig 3 0 10 [] recA5 recB5 "e5" "u5" "u5"
    [] "k1" "v1" 0 [("k2", ⟨5, "x"⟩)] "k2" "v2" 6 ⟨5, "x"⟩
    (by omega) rfl rfl rfl rfl rfl rfl (by decide) (Or.inl rfl) (by decide) (by decide)

/-- C6: from CLOSED, failureThreshold consecutive failures open the breaker
(fewer leave it closed); while OPEN before nextAttemptTime every call is
rejected with the breaker-open error and the operation is not invoked; a call
at or after nextAttemptTime goes through with the breaker HALF_OPEN; a failure
while HALF_OPEN reopens it immediately; successThreshold consecutive successes
while HALF_OPEN close it. -/
theorem circuit_breaker_transitions (opts : CBOptions) (now k k2 : Nat)
    (b1 b2 : Bool) (cb cb2 cb3 : CircuitBreaker) (f0 n0 : Nat)
    (hft : 1 ≤ opts.failureThreshold) (hst : 1 ≤ opts.successThreshold)
    (hk : k < opts.failureThreshold) (hk2 : k2 < opts.successThreshold)
    (hopen : cb.state = CircuitState.opened) (hbefore : now < cb.nextAttemptTime)
    (hopen2 : cb2.state = CircuitState.opened) (hafter : cb2.nextAttemptTime ≤ now)
    (hhalf : cb3.state = CircuitState.halfOpen) :
    (cbIter opts now false k ⟨CircuitState.closed, 0, 0, 0⟩).state =
      CircuitState.closed ∧
    (cbIter opts now false opts.failureThreshold ⟨CircuitState.closed, 0, 0, 0⟩).state =
      CircuitState.opened ∧
    cbExecute opts now b1 cb = ⟨cb, false, true, none⟩ ∧
    ((cbExecute opts now b2 cb2).invoked = true ∧
      (cbExecute opts now b2 cb2).stateAtInvoke = some CircuitState.halfOpen) ∧
    (cbExecute opts now false cb3).cb.state = CircuitState.opened ∧
    (cbIter opts now true opts.successThreshold
      ⟨CircuitState.halfOpen, f0, 0, n0⟩).state = CircuitState.closed ∧
    (cbIter opts now true k2 ⟨CircuitState.halfOpen, f0, 0, n0⟩).state =
      CircuitState.halfOpen := by
  have hnb : ¬ now < cb2.nextAttemptTime := by omega
  refine ⟨?_, ?_, ?_, ?_, ?_, ?_, ?_⟩
  · rw [cbIter_fail_closed opts now k hk]
  · have hT : opts.failureThreshold = (opts.failureThreshold - 1) + 1 := by omega
    rw [hT, cbIter, cbIter_fail_closed opts now (opts.failureThreshold - 1) (by omega)]
    have hge : opts.failureThreshold ≤ (opts.failureThreshold - 1) + 1 := by omega
    simp [cbExecute, onFailure, transitionTo, hge]
  · simp [cbExecute, hopen, hbefore]
  · rcases b2 with - | - <;> simp [cbExecute, hopen2, hnb, transitionTo]
  · have hne : ¬ cb3.state = CircuitState.opened := by rw [hhalf]; decide
    simp [cbExecute, hne, onFailure, hhalf, transitionTo]
  · have hT : opts.successThreshold = (opts.successThreshold - 1) + 1 := by omega
    rw [hT, cbIter, cbIter_succ_halfOpen opts now f0 n0 (opts.successThreshold - 1) (by omega)]
    have hge : opts.successThreshold ≤ (opts.successThreshold - 1) + 1 := by omega
    simp [cbExecute, onSuccess, transitionTo, hge]
  · rw [cbIter_succ_halfOpen opts now f0 n0 k2 hk2]

theorem circuit_breaker_transitions_witness :
    (cbIter defaultCBOptions 100 false 4 ⟨CircuitState.closed, 0, 0, 0⟩).state =
      CircuitState.closed ∧
    (cbIter defaultCBOptions 100 false defaultCBOptions.failureThreshold
      ⟨CircuitState.closed, 0, 0, 0⟩).state = CircuitState.opened ∧
    cbExecute defaultCBOptions 100 true ⟨CircuitState.opened, 5, 0, 200⟩ =
      ⟨⟨CircuitState.opened, 5, 0, 200⟩, false, true, none⟩ ∧
    ((cbExecute defaultCBOptions 100 true ⟨CircuitState.opened, 5, 0, 50⟩).invoked = true ∧
      (cbExecute defaultCBOptions 100 true ⟨CircuitState.opened, 5, 0, 50⟩).stateAtInvoke =
        some CircuitState.halfOpen) ∧
    (cbExecute defaultCBOptions 100 false ⟨CircuitState.halfOpen, 0, 1, 50⟩).cb.state =
      CircuitState.opened ∧
    (cbIter defaultCBOptions 100 true defaultCBOptions.successThreshold
      ⟨CircuitState.halfOpen, 0, 0, 77⟩).state = CircuitState.closed ∧
    (cbIter defaultCBOptions 100 true 1 ⟨CircuitState.halfOpen, 0, 0, 77⟩).state =
      CircuitState.halfOpen :=
  circuit_breaker_transitions defaultCBOptions 100 4 1 true true
    ⟨CircuitState.opened, 5, 0, 200⟩ ⟨CircuitState.opened, 5, 0, 50⟩
    ⟨CircuitState.halfOpen, 0, 1, 50⟩ 0 77
    (by decide) (by decide) (by decide) (by decide) rfl (by decide) rfl (by decide) rfl

/-- C7: with the default options, the computed delay for attempt n lies within
plus/minus the jitter fraction of the capped exponential delay, and no sleep
ever happens at or after a run's final attempt. -/
theorem backoff_delay_bounds {σ α : Type} (n : Nat) (r : ℚ)
    (step : Nat → σ → σ × Except JsError α) (classify : JsError → Bool)
    (maxAttempts : Nat) (s0 : σ)
    (hn : 1 ≤ n) (hr0 : 0 ≤ r) (hr1 : r ≤ 1) :
    ((9 : ℚ)/10 * min ((100 : ℚ) * 2 ^ (n - 1)) 5000 ≤
        ((calculateDelay n defaultRetryOptions r : ℤ) : ℚ) ∧
      ((calculateDelay n defaultRetryOptions r : ℤ) : ℚ) ≤
        (11 : ℚ)/10 * min ((100 : ℚ) * 2 ^ (n - 1)) 5000) ∧
    (retryWithBackoff step classify maxAttempts s0).slept.all
      (fun x => decide (x < (retryWithBackoff step classify maxAttempts s0).attempts)) =
      true := by
  have hcd : calculateDelay n defaultRetryOptions r =
      ⌊min ((100 : ℚ) * 2 ^ (n - 1)) 5000 +
        min ((100 : ℚ) * 2 ^ (n - 1)) 5000 * (1/10) * (r * 2 - 1)⌋ := rfl
  have hCpos : (0 : ℚ) < min ((100 : ℚ) * 2 ^ (n - 1)) 5000 := by
    apply lt_min
    · positivity
    · norm_num
  have hjlo : -(min ((100 : ℚ) * 2 ^ (n - 1)) 5000 * (1/10)) ≤
      min ((100 : ℚ) * 2 ^ (n - 1)) 5000 * (1/10) * (r * 2 - 1) := by nlinarith
  have hjhi : min ((100 : ℚ) * 2 ^ (n - 1)) 5000 * (1/10) * (r * 2 - 1) ≤
      min ((100 : ℚ) * 2 ^ (n - 1)) 5000 * (1/10) := by nlinarith
  refine ⟨⟨?_, ?_⟩, ?_⟩
  · obtain ⟨m, hm2⟩ : ∃ m : ℤ, (m : ℚ) = 9/10 * min ((100 : ℚ) * 2 ^ (n - 1)) 5000 := by
      by_cases hm5 : (100 : ℚ) * 2 ^ (n - 1) ≤ 5000
      · refine ⟨90 * 2 ^ (n - 1), ?_⟩
        rw [min_eq_left hm5]
        push_cast
        ring
      · refine ⟨4500, ?_⟩
        rw [min_eq_right (by linarith)]
        norm_num
    have hle : (m : ℚ) ≤ min ((100 : ℚ) * 2 ^ (n - 1)) 5000 +
        min ((100 : ℚ) * 2 ^ (n - 1)) 5000 * (1/10) * (r * 2 - 1) := by
      rw [hm2]
      linarith
    have hfl := Int.le_floor.mpr hle
    rw [hcd, ← hm2]
    exact_mod_cast hfl
  · rw [hcd]
    have hfle := Int.floor_le (min ((100 : ℚ) * 2 ^ (n - 1)) 5000 +
      min ((100 : ℚ) * 2 ^ (n - 1)) 5000 * (1/10) * (r * 2 - 1))
    linarith
  · have hb := retryGo_slept_lt_attempts step classify maxAttempts maxAttempts 0 s0 [] none
      (by omega) (by intro x hx; cases hx) (by intro h0 x hx; cases hx)
    exact List.all_eq_true.mpr (fun x hx => decide_eq_true (hb x hx))

theorem backoff_delay_bounds_witness :
    ((9 : ℚ)/10 * min ((100 : ℚ) * 2 ^ (2 - 1)) 5000 ≤
        ((calculateDelay 2 defaultRetryOptions (1/2) : ℤ) : ℚ) ∧
      ((calculateDelay 2 defaultRetryOptions (1/2) : ℤ) : ℚ) ≤
        (11 : ℚ)/10 * min ((100 : ℚ) * 2 ^ (2 - 1)) 5000) ∧
    (retryWithBackoff (fun _ x => (x, (Except.error etimedoutError : Except JsError Unit)))
      defaultClassify 3 ()).slept.all
      (fun x => decide (x <
        (retryWithBackoff
          (fun _ x => (x, (Except.error etimedoutError : Except JsError Unit)))
          defaultClassify 3 ()).attempts)) = true :=
  backoff_delay_bounds 2 (1/2)
    (fun _ x => (x, (Except.error etimedoutError : Except JsError Unit)))
    defaultClassify 3 () (by omega) (by norm_num) (by norm_num)

/-- C8: a throwing checkpoint save never surfaces: processBatch returns
normally and identically (same failedIdentifiers, same everything) whether the
save fails or succeeds — the failure is swallowed inside updateCheckpoint. -/
theorem processBatch_swallows_checkpoint_failure (cfg : IdemConfig)
    (maxAttempts now : Nat) (records : List RecordModel) (tr : Tracker) (e : JsError) :
    processBatch cfg maxAttempts now records tr (Except.error e) =
      processBatch cfg maxAttempts now records tr (Except.ok ()) ∧
    processBatch cfg maxAttempts now records tr (Except.error e) =
      Except.ok (batchOutOr (processBatch cfg maxAttempts now records tr
        (Except.error e))) := by
  constructor
  · rw [processBatch_ok, processBatch_ok]
  · rw [processBatch_ok]
    rfl

/-- Record used to witness C9: decodes with both dedup ids, validates, routes,
but its processor always throws a non-retryable terminal error. -/
def recC9 : RecordModel :=
  ⟨"7", none, none, "uuid-9", Except.ok ⟨some "e9", some "u9"⟩, ⟨true, some "T", none⟩,
    true, fun _ => some ⟨"PermanentFailure", "denied", none, false⟩⟩

/-- C9: an attempt that throws a non-skip error (with the event carrying an
eventId) ends with that eventId absent from the tracker; consequently a record
that is ultimately reported failed leaves its eventId unmarked, so a later
redelivery is admitted rather than skipped as a duplicate. -/
theorem failed_record_not_marked (cfg : IdemConfig) (maxAttempts now : Nat)
    (r : RecordModel) (tr0 : Tracker) (ev : DecodedEvent) (eid : String)
    (a : Nat) (trS : Tracker) (e2 : JsError)
    (hm : 1 ≤ maxAttempts)
    (hdec : r.decode = Except.ok ev)
    (heid : ev.eventId = some eid)
    (hstep : (processRecordStep cfg r a now trS).result = Except.error e2)
    (hns2 : e2.isSkippedRecordError = false) :
    tGet (processRecordStep cfg r a now trS).tracker eid = none ∧
    ((processRecordWithRetry cfg maxAttempts now r tr0).res.success = false →
      tGet (processRecordWithRetry cfg maxAttempts now r tr0).tracker eid = none) := by
  constructor
  · exact processRecordStep_error_unmarked cfg r a now trS ev eid e2 hdec heid hstep hns2
  · intro hfail
    rcases hres : (retryWithBackoff (pipeStep cfg r now) defaultClassify maxAttempts
        ⟨tr0, [], 0⟩).result with eo | v
    · obtain ⟨e, a2, sPrev, heo, hstep2, hstate⟩ :=
        retryGo_error_source (pipeStep cfg r now) defaultClassify maxAttempts
          maxAttempts 0 ⟨tr0, [], 0⟩ [] none eo hm (by omega) hres
      subst heo
      by_cases hsk : e.isSkippedRecordError
      · simp [processRecordWithRetry, hres, hsk] at hfail
      · have htrk : (processRecordWithRetry cfg maxAttempts now r tr0).tracker =
            (retryWithBackoff (pipeStep cfg r now) defaultClassify maxAttempts
              ⟨tr0, [], 0⟩).state.tracker := by
          simp [processRecordWithRetry, hres, hsk]
        have hstate2 : (retryWithBackoff (pipeStep cfg r now) defaultClassify maxAttempts
            ⟨tr0, [], 0⟩).state = (pipeStep cfg r now a2 sPrev).1 := hstate
        rw [htrk, hstate2]
        have hstep3 : (processRecordStep cfg r a2 now sPrev.tracker).result =
            Except.error e := by
          simpa [pipeStep] using hstep2
        have hunm := processRecordStep_error_unmarked cfg r a2 now sPrev.tracker ev eid e
          hdec heid hstep3 (by simpa using hsk)
        simpa [pipeStep] using hunm
    · simp [processRecordWithRetry, hres] at hfail

theorem failed_record_not_marked_witness :
    tGet (processRecordStep defaultIdemConfig recC9 1 0 []).tracker "e9" = none ∧
    tGet (processRecordWithRetry defaultIdemConfig 3 0 recC9 []).tracker "e9" = none :=
  ⟨(failed_record_not_marked defaultIdemConfig 3 0 recC9 [] ⟨some "e9", some "u9"⟩ "e9"
      1 [] ⟨"PermanentFailure", "denied", none, false⟩
      (by omega) rfl rfl rfl rfl).1,
   (failed_record_not_marked defaultIdemConfig 3 0 recC9 [] ⟨some "e9", some "u9"⟩ "e9"
      1 [] ⟨"PermanentFailure", "denied", none, false⟩
      (by omega) rfl rfl rfl rfl).2 (by decide)⟩

/-- C10: when the decoded payload misses eventId or userId the dedup layer is
bypassed entirely: the whole run makes no checkAndMarkInProgress call, never
adds a tracker entry, and the record is handed to validation/processing (the
processor is invoked exactly when validation passes and a processor matches,
regardless of any duplicate). -/
theorem missing_ids_bypass_dedup (cfg : IdemConfig) (maxAttempts now : Nat)
    (r : RecordModel) (tr0 : Tracker) (ev : DecodedEvent) (a : Nat) (trS : Tracker)
    (hdec : r.decode = Except.ok ev)
    (hmiss : ev.eventId = none ∨ ev.userId = none) :
    (processRecordWithRetry cfg maxAttempts now r tr0).ops.all
      (fun op => !op.isCheckAndMark) = true ∧
    (processRecordWithRetry cfg maxAttempts now r tr0).tracker.all
      (fun p => decide (p ∈ tr0)) = true ∧
    (processRecordStep cfg r a now trS).procInvoked =
      (r.validation.isValid && r.hasMatchingProcessor) := by
  have hJstep : ∀ (a2 : Nat) (ps : PipeState),
      (ps.ops.all (fun op => !op.isCheckAndMark) = true ∧ ∀ p ∈ ps.tracker, p ∈ tr0) →
      ((pipeStep cfg r now a2 ps).1.ops.all (fun op => !op.isCheckAndMark) = true ∧
        ∀ p ∈ (pipeStep cfg r now a2 ps).1.tracker, p ∈ tr0) := by
    intro a2 ps hJ
    obtain ⟨hall, hsub, -⟩ := processRecordStep_missing_ids cfg r a2 now ps.tracker ev
      hdec hmiss
    constructor
    · simp only [pipeStep, List.all_append]
      simp [hJ.1, hall]
    · intro p hp
      exact hJ.2 p (hsub p (by simpa [pipeStep] using hp))
  have hJ := retryGo_state_invariant (pipeStep cfg r now) defaultClassify maxAttempts
    (fun ps => ps.ops.all (fun op => !op.isCheckAndMark) = true ∧ ∀ p ∈ ps.tracker, p ∈ tr0)
    hJstep maxAttempts 0 ⟨tr0, [], 0⟩ [] none ⟨rfl, fun p hp => hp⟩
  obtain ⟨htrk, hops, -⟩ := processRecordWithRetry_proj cfg maxAttempts now r tr0
  refine ⟨?_, ?_, ?_⟩
  · rw [hops]
    exact hJ.1
  · rw [htrk]
    exact List.all_eq_true.mpr (fun p hp => decide_eq_true (hJ.2 p hp))
  · exact (processRecordStep_missing_ids cfg r a now trS ev hdec hmiss).2.2

/-- Record used to witness C10: decodes without a userId (so dedup cannot
apply), fails validation; the tracker starts with its eventId marked by
someone else. -/
def recC10 : RecordModel :=
  ⟨"3", none, none, "uuid-10", Except.ok ⟨some "e10", none⟩,
    ⟨false, none, some "bad shape"⟩, true, fun _ => none⟩

theorem missing_ids_bypass_dedup_witness :
    (processRecordWithRetry defaultIdemConfig 3 0 recC10
      [("e10", ⟨0, "x"⟩)]).ops.all (fun op => !op.isCheckAndMark) = true ∧
    (processRecordWithRetry defaultIdemConfig 3 0 recC10
      [("e10", ⟨0, "x"⟩)]).tracker.all
      (fun p => decide (p ∈ [("e10", (⟨0, "x"⟩ : IdemEntry))])) = true ∧
    (processRecordStep defaultIdemConfig recC10 1 0 []).procInvoked =
      (recC10.validation.isValid && recC10.hasMatchingProcessor) :=
  missing_ids_bypass_dedup defaultIdemConfig 3 0 recC10 [("e10", ⟨0, "x"⟩)]
    ⟨some "e10", none⟩ 1 [] rfl (Or.inr rfl)
